import Mathlib

/-!
Shallow embedding of the cratebot program (src/main.rs): the sqlite-backed
announcement store (Db), the paginated registry fetch (Api.crates), the
tweet composition and publishing step (Client.tweet), the per-cycle driver
logic and the hourly scheduling loop in run().

The store is modelled as a list of rows in insertion order (sqlite returns
rows of a plain table in rowid order, which is insertion order here, since
sync only ever appends and update rewrites rows in place). Timestamps are
modelled as integers (Utc::now().timestamp()); the date column is nullable
in the schema, hence Option Int, but the code always writes a value.
Fallible calls to external collaborators (registry HTTP, twitter, the
environment) are oracles passed in as Except-valued arguments.
-/

namespace Cratebot

/-- PAGE_SIZE constant from main.rs. -/
def PAGE_SIZE : Nat := 100

/-- A crate summary as returned by the registry listing endpoint; only the
name field is used by the program. -/
structure Crate where
  name : String
deriving DecidableEq, Repr

/-- One row of the crates table: crates(name TEXT, visited INTEGER, date TEXT). -/
structure CrateRecord where
  name : String
  visited : Bool
  date : Option Int
deriving DecidableEq, Repr

/-- Full crate metadata fetched on demand for the crate chosen for
announcement: name, optional description, owner logins. -/
structure FullCrate where
  name : String
  description : Option String
  owners : List String
deriving DecidableEq, Repr

/-- The four credential strings deserialized from the environment by envy. -/
structure Config where
  access_token_key : String
  access_token_secret : String
  consumer_key : String
  consumer_secret : String
deriving DecidableEq, Repr

/-- Db::count: SELECT COUNT(*) FROM crates. -/
def Db.count (s : List CrateRecord) : Nat :=
  s.length

/-- Db::crates: SELECT * FROM crates WHERE visited = 0, then a single
if-let on statement.next(), so at most the FIRST result row is read and
its column 0 (the name) pushed; the remaining unvisited rows are never
fetched. -/
def Db.crates (s : List CrateRecord) : List String :=
  match s.filter (fun r => r.visited == false) with
  | [] => []
  | r :: _ => [r.name]

/-- Db::update: UPDATE crates SET visited = 1, date = t WHERE name = n.
Every row whose name matches is rewritten in place. -/
def Db.update (s : List CrateRecord) (n : String) (t : Int) : List CrateRecord :=
  s.map (fun r => if r.name = n then { r with visited := true, date := some t } else r)

/-- Db::update as the fallible call the driver sees: conn.execute reports
an error only for SQL-level failures, never for an UPDATE that matched
zero rows, so the call is modelled as always returning ok. -/
def Db.updateResult (s : List CrateRecord) (n : String) (t : Int) :
    Except String (List CrateRecord) :=
  Except.ok (Db.update s n t)

/-- Existence probe used by Db::sync: SELECT * FROM crates WHERE name = :name
returns a row exactly when some record has that name. -/
def Db.hasName (s : List CrateRecord) (n : String) : Bool :=
  s.any (fun r => r.name == n)

/-- Row built by the INSERT in Db::sync: VALUES (name, 0, now). -/
def CrateRecord.fresh (n : String) (t : Int) : CrateRecord :=
  { name := n, visited := false, date := some t }

/-- Db::sync: for each incoming crate name, probe the table as it stood at
call entry (the INSERT statements are accumulated in a string and executed
only after the probe loop), and append a fresh unvisited row for every name
the probe did not find. The per-insert Utc::now() calls inside one sync are
modelled as the single timestamp t. -/
def Db.sync (s : List CrateRecord) (crates : List Crate) (t : Int) : List CrateRecord :=
  s ++ ((crates.map Crate.name).filter (fun n => !(Db.hasName s n))).map
    (fun n => CrateRecord.fresh n t)

/-- Api::crates pagination walk: starting from starting_page (default 1),
issue one listing request per page, append the returned crates, and stop
the first time a response is empty. The remote client is the function from
page number to returned crates; the walk is run on explicit fuel because
the source loop has no termination bound of its own, and it also counts the
requests issued. -/
def Api.cratesAux (client : Nat → List Crate) :
    Nat → Nat → List Crate → Nat → Option (List Crate × Nat)
  | 0, _, _, _ => none
  | fuel + 1, page, acc, reqs =>
    let response := client page
    if response.isEmpty then some (acc, reqs + 1)
    else Api.cratesAux client fuel (page + 1) (acc ++ response) (reqs + 1)

/-- Api::crates entry point: page starts at starting_page.unwrap_or(1),
the accumulator empty, no requests issued yet. -/
def Api.crates (client : Nat → List Crate) (startingPage : Option Nat) (fuel : Nat) :
    Option (List Crate × Nat) :=
  Api.cratesAux client fuel (startingPage.getD 1) [] 0

/-- A registry serving a fixed catalog in pages of PAGE_SIZE: page p holds
items [(p-1)*PAGE_SIZE, p*PAGE_SIZE), so pages past the end are empty. -/
def registryFromList (items : List Crate) (page : Nat) : List Crate :=
  (items.drop ((page - 1) * PAGE_SIZE)).take PAGE_SIZE

/-- The selection step in run(): db.crates().choose(rng).ok_or_else(error).
SliceRandom::choose returns the element at a uniformly random index when
the slice is nonempty and None when it is empty; the random draw is
modelled by the index pick reduced modulo the pool size. -/
def chooseOne (names : List String) (pick : Nat) : Except String String :=
  match names with
  | [] => Except.error "Failed to choose a random crate from crates in the database"
  | x :: xs => Except.ok ((x :: xs).get ⟨pick % (x :: xs).length, Nat.mod_lt _ (Nat.succ_pos _)⟩)

/-- Text composed by Client::tweet: "(owners) / name[: description]\nurl". -/
def tweetText (fc : FullCrate) : String :=
  let description :=
    match fc.description with
    | some d => ": " ++ d
    | none => ""
  "(" ++ String.intercalate ", " fc.owners ++ ") / " ++ fc.name ++ description
    ++ "\n" ++ "https://crates.io/crates/" ++ fc.name

/-- Client::tweet: build the draft text, send it through the posting client,
and return the same FullCrate on success; a send failure propagates. -/
def Client.tweet (send : String → Except String Unit) (fc : FullCrate) :
    Except String FullCrate :=
  match send (tweetText fc) with
  | Except.error e => Except.error e
  | Except.ok _ => Except.ok fc

/-- The announce-and-mark segment of run() for an already selected name:
fetch full detail, tweet it, and only if both succeed mark the returned
crate's name visited. An error on either step propagates before Db.update
is reached. -/
def announceStep (getCrate : String → Except String FullCrate)
    (send : String → Except String Unit)
    (s : List CrateRecord) (sel : String) (t : Int) :
    Except String (List CrateRecord × FullCrate) :=
  match getCrate sel with
  | Except.error e => Except.error e
  | Except.ok fc =>
    match Client.tweet send fc with
    | Except.error e => Except.error e
    | Except.ok fc2 => Except.ok (Db.update s fc2.name t, fc2)

/-- Store operations the program performs over the lifetime of a record:
Db::sync with an incoming catalog, and Db::update (mark visited) for a name. -/
inductive DbOp where
  | sync (crates : List Crate) (t : Int)
  | update (name : String) (t : Int)
deriving DecidableEq, Repr

/-- Apply one store operation. -/
def applyOp (s : List CrateRecord) : DbOp → List CrateRecord
  | DbOp.sync crates t => Db.sync s crates t
  | DbOp.update n t => Db.update s n t

/-- Apply a sequence of store operations, oldest first. -/
def applyOps (s : List CrateRecord) (ops : List DbOp) : List CrateRecord :=
  ops.foldl applyOp s

/-- Observable steps of one cycle of run(), in program order. -/
inductive CycleStep where
  | fetchCatalog
  | syncStore
  | loadConfig
  | select
  | fetchDetail
  | publish
  | markVisited
deriving DecidableEq, Repr

/-- Outcomes of the external collaborators consulted during one cycle:
the paginated catalog walk, envy's read of the environment, the detail
fetch, the posting client, and the random draw. -/
structure CycleOracles where
  fetchPages : Except String (List Crate)
  fromEnv : Except String Config
  getCrate : String → Except String FullCrate
  send : String → Except String Unit
  pick : Nat

/-- One pass of the cycle body in run(), recording the steps that were
reached, the store contents afterwards (sqlite writes persist even when a
later step fails), and the error if one aborted the cycle. The order
mirrors the source: api.crates, db.sync, Config::from_env, the random
selection over db.crates(), api.get_crate, Client::tweet, db.update. -/
def runCycle (o : CycleOracles) (s : List CrateRecord) (t : Int) :
    List CycleStep × List CrateRecord × Option String :=
  match o.fetchPages with
  | Except.error e => ([CycleStep.fetchCatalog], s, some e)
  | Except.ok cs =>
    let s1 := Db.sync s cs t
    match o.fromEnv with
    | Except.error e =>
      ([CycleStep.fetchCatalog, CycleStep.syncStore, CycleStep.loadConfig], s1, some e)
    | Except.ok _ =>
      match chooseOne (Db.crates s1) o.pick with
      | Except.error e =>
        ([CycleStep.fetchCatalog, CycleStep.syncStore, CycleStep.loadConfig,
          CycleStep.select], s1, some e)
      | Except.ok sel =>
        match o.getCrate sel with
        | Except.error e =>
          ([CycleStep.fetchCatalog, CycleStep.syncStore, CycleStep.loadConfig,
            CycleStep.select, CycleStep.fetchDetail], s1, some e)
        | Except.ok fc =>
          match o.send (tweetText fc) with
          | Except.error e =>
            ([CycleStep.fetchCatalog, CycleStep.syncStore, CycleStep.loadConfig,
              CycleStep.select, CycleStep.fetchDetail, CycleStep.publish], s1, some e)
          | Except.ok _ =>
            ([CycleStep.fetchCatalog, CycleStep.syncStore, CycleStep.loadConfig,
              CycleStep.select, CycleStep.fetchDetail, CycleStep.publish,
              CycleStep.markVisited], Db.update s1 fc.name t, none)

/-- A cycle environment whose registry works but whose environment is
missing the credentials, so Config::from_env fails. -/
def oracleMissingCreds : CycleOracles where
  fetchPages := Except.ok [Crate.mk "alpha"]
  fromEnv := Except.error "missing consumer key"
  getCrate := fun n => Except.ok (FullCrate.mk n none [])
  send := fun _ => Except.ok ()
  pick := 0

/-- One hour, the scheduling interval of run(). -/
def HOUR : Nat := 60 * 60

/-- The scheduling loop of run(): instant starts at process startup; each
loop iteration observes the clock (now) and, when a full hour has elapsed
since instant, performs the cycle body (taking dur time units) and resets
instant to the completion time, exactly as instant = Instant::now() does
after the body. The input schedule lists the clock observation of each
iteration together with the duration the body would take; the output lists
the (start, end) times of the cycles actually performed. -/
def loopCycles (instant : Nat) : List (Nat × Nat) → List (Nat × Nat)
  | [] => []
  | (now, dur) :: rest =>
    if HOUR ≤ now - instant then (now, now + dur) :: loopCycles (now + dur) rest
    else loopCycles instant rest

/-- Spacing property of a list of (start, end) cycle spans: the first
cycle starts at least an hour after the reference instant, each cycle ends
no earlier than it starts, and each later cycle starts at least an hour
after the previous one ended. -/
def gapOk (instant : Nat) : List (Nat × Nat) → Prop
  | [] => True
  | (st, en) :: rest => instant + HOUR ≤ st ∧ st ≤ en ∧ gapOk en rest

/-! Helper lemmas shared by the claim theorems. -/

/-- A list with positive length is not empty. -/
theorem isEmpty_false_of_length_pos {α : Type} (l : List α) (h : 0 < l.length) :
    l.isEmpty = false := by
  cases l with
  | nil => simp at h
  | cons a t => rfl

/-- The name probe distributes over appending rows. -/
theorem hasName_append (s1 s2 : List CrateRecord) (n : String) :
    Db.hasName (s1 ++ s2) n = (Db.hasName s1 n || Db.hasName s2 n) := by
  unfold Db.hasName
  exact List.any_append

/-- After a sync, every name of the incoming catalog has a record. -/
theorem hasName_sync (s : List CrateRecord) (crates : List Crate) (t : Int)
    (n : String) (hn : n ∈ crates.map Crate.name) :
    Db.hasName (Db.sync s crates t) n = true := by
  unfold Db.sync
  rw [hasName_append]
  cases hs : Db.hasName s n with
  | true => simp
  | false =>
    simp only [Bool.false_or]
    have hmem : CrateRecord.fresh n t ∈
        ((crates.map Crate.name).filter (fun m => !(Db.hasName s m))).map
          (fun m => CrateRecord.fresh m t) :=
      List.mem_map.mpr
        ⟨n, List.mem_filter.mpr ⟨hn, by show (!(Db.hasName s n)) = true; rw [hs]; rfl⟩, rfl⟩
    unfold Db.hasName
    rw [List.any_eq_true]
    exact ⟨CrateRecord.fresh n t, hmem, by simp [CrateRecord.fresh]⟩

/-- A sync whose every incoming name already has a record inserts nothing. -/
theorem sync_noop_of_all_present (s : List CrateRecord) (crates : List Crate)
    (t : Int) (h : ∀ n ∈ crates.map Crate.name, Db.hasName s n = true) :
    Db.sync s crates t = s := by
  unfold Db.sync
  have hf : (crates.map Crate.name).filter (fun n => !(Db.hasName s n)) = [] := by
    rw [List.filter_eq_nil_iff]
    intro n hn
    simp [h n hn]
  rw [hf]
  simp

/-! Claim theorems. -/

/-- Claim C1 (code bug): Db::crates is specified to return the names of
all records with visited = false, but its if-let reads at most the first
result row. After syncing alpha, beta, gamma into an empty store it
returns only the first name, and after marking beta visited it still
returns only the first name, instead of all three, respectively
alpha and gamma. -/
theorem unvisited_names_truncated :
    Db.crates (Db.sync [] [Crate.mk "alpha", Crate.mk "beta", Crate.mk "gamma"] 0)
      = ["alpha"] ∧
    Db.crates (Db.update
      (Db.sync [] [Crate.mk "alpha", Crate.mk "beta", Crate.mk "gamma"] 0) "beta" 1)
      = ["alpha"] ∧
    (["alpha"] : List String) ≠ ["alpha", "beta", "gamma"] ∧
    (["alpha"] : List String) ≠ ["alpha", "gamma"] := by
  refine ⟨rfl, rfl, by decide, by decide⟩

/-- Claim C3 counterexample: marking a name that has no record succeeds as
a no-op instead of returning an error, because the SQL UPDATE simply
matches zero rows. -/
theorem update_missing_name_succeeds :
    Db.updateResult [] "ghost" 0 = Except.ok [] := rfl

/-- Claim C3 (amended): mark_visited never fails; when the name has no
record it succeeds leaving the store unchanged, and when the name exists
it sets visited to true and stamps the time on every matching record. -/
theorem update_marks_or_noop (s : List CrateRecord) (n : String) (t : Int) :
    (Db.updateResult s n t).isOk = true ∧
    ((∀ r ∈ s, r.name ≠ n) → Db.updateResult s n t = Except.ok s) ∧
    (∀ i : Fin s.length, (s.get i).name = n →
      ∃ h2 : i.1 < (Db.update s n t).length,
        ((Db.update s n t).get ⟨i.1, h2⟩).visited = true ∧
        ((Db.update s n t).get ⟨i.1, h2⟩).date = some t) := by
  refine ⟨rfl, ?_, ?_⟩
  · intro h
    have hmap : s.map
        (fun r => if r.name = n then { r with visited := true, date := some t } else r)
        = s.map id := by
      apply List.map_congr_left
      intro r hr
      simp [h r hr]
    simp only [Db.updateResult, Db.update, hmap, List.map_id]
  · intro i hi
    rw [List.get_eq_getElem] at hi
    refine ⟨by simp only [Db.update, List.length_map]; exact i.2, ?_, ?_⟩
    · simp [Db.update, List.get_eq_getElem, List.getElem_map, hi]
    · simp [Db.update, List.get_eq_getElem, List.getElem_map, hi]

/-- Witness for update_marks_or_noop at a store without the target name. -/
theorem update_marks_or_noop_witness :
    Db.updateResult [CrateRecord.fresh "alpha" 0] "beta" 1
      = Except.ok [CrateRecord.fresh "alpha" 0] :=
  (update_marks_or_noop [CrateRecord.fresh "alpha" 0] "beta" 1).2.1 (by decide)

/-- Claim C4 counterexample: a record freshly inserted by sync has its
date column already populated with the sync timestamp, not left null. -/
theorem fresh_record_has_timestamp :
    Db.sync [] [Crate.mk "alpha"] 7 = [CrateRecord.mk "alpha" false (some 7)] ∧
    some (7 : Int) ≠ (none : Option Int) := ⟨rfl, by decide⟩

/-- Claim C4 (amended): sync appends only fresh rows, each unvisited and
stamped with the sync time, so the date column is set already at insert
(and later overwritten by Db::update when visited transitions to true). -/
theorem sync_inserts_timestamped (s : List CrateRecord) (crates : List Crate)
    (t : Int) :
    ∃ inserted, Db.sync s crates t = s ++ inserted ∧
      ∀ r ∈ inserted, r.visited = false ∧ r.date = some t := by
  refine ⟨_, rfl, ?_⟩
  intro r hr
  rcases List.mem_map.mp hr with ⟨n, _, rfl⟩
  exact ⟨rfl, rfl⟩

/-- Witness for sync_inserts_timestamped at a concrete store and catalog. -/
theorem sync_inserts_timestamped_witness :
    ∃ inserted, Db.sync [] [Crate.mk "alpha"] 7 = [] ++ inserted ∧
      ∀ r ∈ inserted, r.visited = false ∧ r.date = some 7 :=
  sync_inserts_timestamped [] [Crate.mk "alpha"] 7

/-- Claim C5: sync is idempotent. Re-running sync with the same catalog
leaves the store contents (hence the row count) exactly as after the first
run, because every incoming name already has a record then, and a sync all
of whose names are already present is a no-op. -/
theorem sync_idempotent (s : List CrateRecord) (crates : List Crate) (t1 t2 : Int) :
    Db.sync (Db.sync s crates t1) crates t2 = Db.sync s crates t1 ∧
    Db.count (Db.sync (Db.sync s crates t1) crates t2)
      = Db.count (Db.sync s crates t1) ∧
    ((∀ c ∈ crates, ∃ r ∈ s, r.name = c.name) → Db.sync s crates t2 = s) := by
  have h1 : Db.sync (Db.sync s crates t1) crates t2 = Db.sync s crates t1 :=
    sync_noop_of_all_present _ _ _ (fun n hn => hasName_sync s crates t1 n hn)
  refine ⟨h1, by rw [h1], ?_⟩
  intro h
  apply sync_noop_of_all_present
  intro n hn
  rcases List.mem_map.mp hn with ⟨c, hc, rfl⟩
  rcases h c hc with ⟨r, hr, hname⟩
  unfold Db.hasName
  rw [List.any_eq_true]
  exact ⟨r, hr, by simp [hname]⟩

/-- Witness for sync_idempotent: re-sync of one crate is a no-op, and the
all-present hypothesis holds for a store already holding that name. -/
theorem sync_idempotent_witness :
    Db.sync (Db.sync [] [Crate.mk "alpha"] 1) [Crate.mk "alpha"] 2
      = Db.sync [] [Crate.mk "alpha"] 1 ∧
    Db.sync [CrateRecord.fresh "alpha" 1] [Crate.mk "alpha"] 2
      = [CrateRecord.fresh "alpha" 1] :=
  ⟨(sync_idempotent [] [Crate.mk "alpha"] 1 2).1,
   (sync_idempotent [CrateRecord.fresh "alpha" 1] [Crate.mk "alpha"] 1 2).2.2
     (by decide)⟩

/-- Claim C8: the selection step fails with the explicit empty-pool error
when the unvisited pool is empty, and on a nonempty pool it returns one of
the pool's elements. -/
theorem chooseOne_empty_errors (names : List String) (pick : Nat) :
    (names = [] →
      chooseOne names pick
        = Except.error "Failed to choose a random crate from crates in the database") ∧
    (names ≠ [] → ∃ x, chooseOne names pick = Except.ok x ∧ x ∈ names) := by
  constructor
  · rintro rfl
    rfl
  · intro h
    match names with
    | [] => exact absurd rfl h
    | x :: xs => exact ⟨_, rfl, List.get_mem ..⟩

/-- Witness for chooseOne_empty_errors on the empty and a singleton pool. -/
theorem chooseOne_empty_errors_witness :
    chooseOne [] 0
      = Except.error "Failed to choose a random crate from crates in the database" ∧
    ∃ x, chooseOne ["alpha"] 3 = Except.ok x ∧ x ∈ ["alpha"] :=
  ⟨(chooseOne_empty_errors [] 0).1 rfl,
   (chooseOne_empty_errors ["alpha"] 3).2 (by decide)⟩

/-- One store operation never shrinks the table. -/
theorem length_le_applyOp (s : List CrateRecord) (op : DbOp) :
    s.length ≤ (applyOp s op).length := by
  cases op with
  | sync crates t =>
    simp only [applyOp, Db.sync, List.length_append]
    omega
  | update n t =>
    simp [applyOp, Db.update]

/-- Effect of one store operation on the row at a fixed position: the name
is never changed, a true visited flag is never cleared, and a false
visited flag stays false unless the operation is an update for that very
name. -/
theorem applyOp_get (s : List CrateRecord) (op : DbOp) (i : Nat) (h : i < s.length) :
    ∃ h2 : i < (applyOp s op).length,
      ((applyOp s op).get ⟨i, h2⟩).name = (s.get ⟨i, h⟩).name ∧
      ((s.get ⟨i, h⟩).visited = true → ((applyOp s op).get ⟨i, h2⟩).visited = true) ∧
      ((s.get ⟨i, h⟩).visited = false →
        (∀ t, op ≠ DbOp.update (s.get ⟨i, h⟩).name t) →
        ((applyOp s op).get ⟨i, h2⟩).visited = false) := by
  have h2 : i < (applyOp s op).length := lt_of_lt_of_le h (length_le_applyOp s op)
  refine ⟨h2, ?_⟩
  cases op with
  | sync crates t =>
    have he : (applyOp s (DbOp.sync crates t)).get ⟨i, h2⟩ = s.get ⟨i, h⟩ := by
      show (Db.sync s crates t).get ⟨i, h2⟩ = s.get ⟨i, h⟩
      simp only [List.get_eq_getElem, Db.sync]
      exact List.getElem_append_left h
    rw [he]
    exact ⟨rfl, fun hv => hv, fun hv _ => hv⟩
  | update n t =>
    have he : (applyOp s (DbOp.update n t)).get ⟨i, h2⟩ =
        (if (s.get ⟨i, h⟩).name = n
         then { s.get ⟨i, h⟩ with visited := true, date := some t }
         else s.get ⟨i, h⟩) := by
      show (Db.update s n t).get ⟨i, h2⟩ = _
      simp [Db.update, List.get_eq_getElem, List.getElem_map]
    rw [he]
    by_cases hname : (s.get ⟨i, h⟩).name = n
    · rw [if_pos hname]
      refine ⟨rfl, fun _ => rfl, ?_⟩
      intro _ hne
      exact absurd (by rw [hname]) (hne t)
    · rw [if_neg hname]
      exact ⟨rfl, fun hv => hv, fun hv _ => hv⟩

/-- Effect of a sequence of store operations on the row at a fixed
position, by induction over the sequence. -/
theorem applyOps_get (s : List CrateRecord) (ops : List DbOp) (i : Nat)
    (h : i < s.length) :
    ∃ h2 : i < (applyOps s ops).length,
      ((applyOps s ops).get ⟨i, h2⟩).name = (s.get ⟨i, h⟩).name ∧
      ((s.get ⟨i, h⟩).visited = true → ((applyOps s ops).get ⟨i, h2⟩).visited = true) ∧
      ((s.get ⟨i, h⟩).visited = false →
        (∀ t, DbOp.update (s.get ⟨i, h⟩).name t ∉ ops) →
        ((applyOps s ops).get ⟨i, h2⟩).visited = false) := by
  induction ops generalizing s with
  | nil => exact ⟨h, rfl, fun hv => hv, fun hv _ => hv⟩
  | cons op ops ih =>
    obtain ⟨h2, hname, htrue, hfalse⟩ := applyOp_get s op i h
    obtain ⟨h3, ihname, ihtrue, ihfalse⟩ := ih (applyOp s op) h2
    refine ⟨h3, ihname.trans hname, fun hv => ihtrue (htrue hv), ?_⟩
    intro hv hne
    refine ihfalse
      (hfalse hv (fun t heq => hne t ?_))
      (fun t ht => hne t (List.mem_cons_of_mem op (by rwa [hname] at ht)))
    rw [← heq]
    exact List.mem_cons_self op ops

/-- Claim C7: a record is never overwritten by sync (the pre-existing
prefix of the table survives any sync unchanged), its name is stable
under every operation, its visited flag is false from creation until an
update for its name occurs in the operation sequence, and once true it
stays true under every further operation. -/
theorem visited_lifecycle (s : List CrateRecord) (ops : List DbOp) (i : Nat)
    (h : i < s.length) :
    (∀ crates t, (Db.sync s crates t).take s.length = s) ∧
    ∃ h2 : i < (applyOps s ops).length,
      ((applyOps s ops).get ⟨i, h2⟩).name = (s.get ⟨i, h⟩).name ∧
      ((s.get ⟨i, h⟩).visited = true → ((applyOps s ops).get ⟨i, h2⟩).visited = true) ∧
      ((s.get ⟨i, h⟩).visited = false →
        (∀ t, DbOp.update (s.get ⟨i, h⟩).name t ∉ ops) →
        ((applyOps s ops).get ⟨i, h2⟩).visited = false) := by
  refine ⟨?_, applyOps_get s ops i h⟩
  intro crates t
  unfold Db.sync
  exact List.take_left ..

/-- Witness for visited_lifecycle: an unvisited record stays unvisited
across an update for a different name. -/
theorem visited_lifecycle_witness :
    ((applyOps [CrateRecord.fresh "alpha" 0] [DbOp.update "beta" 5]).get
      ⟨0, by decide⟩).visited = false := by
  obtain ⟨-, h2, -, -, hfalse⟩ :=
    visited_lifecycle [CrateRecord.fresh "alpha" 0] [DbOp.update "beta" 5] 0 (by decide)
  refine hfalse rfl ?_
  intro t ht
  have heq := List.mem_singleton.mp ht
  injection heq with h1 h2
  exact absurd h1 (by decide)

/-- Claim C6: in the announce segment, a failing detail fetch or a failing
publish aborts the whole step with that error before Db.update runs, so
the store (and the selected record's visited flag) is untouched; only when
both succeed is the store updated, and the crate handed back is exactly
the one the tweet was published for, whose name is then marked visited. -/
theorem announce_no_partial_state (getCrate : String → Except String FullCrate)
    (send : String → Except String Unit) (s : List CrateRecord) (sel : String)
    (t : Int) :
    (∀ e, getCrate sel = Except.error e →
      announceStep getCrate send s sel t = Except.error e) ∧
    (∀ fc e, getCrate sel = Except.ok fc → send (tweetText fc) = Except.error e →
      announceStep getCrate send s sel t = Except.error e) ∧
    (∀ fc, getCrate sel = Except.ok fc → send (tweetText fc) = Except.ok () →
      announceStep getCrate send s sel t
        = Except.ok (Db.update s fc.name t, fc)) := by
  refine ⟨?_, ?_, ?_⟩
  · intro e he
    simp [announceStep, he]
  · intro fc e h1 hsend
    simp [announceStep, Client.tweet, h1, hsend]
  · intro fc h1 hsend
    simp [announceStep, Client.tweet, h1, hsend]

/-- Witness for announce_no_partial_state: a failing detail fetch aborts
the step with the fetch error. -/
theorem announce_no_partial_state_witness :
    announceStep (fun _ => Except.error "registry down") (fun _ => Except.ok ())
      [] "alpha" 0 = Except.error "registry down" :=
  (announce_no_partial_state (fun _ => Except.error "registry down")
    (fun _ => Except.ok ()) [] "alpha" 0).1 "registry down" rfl

/-- Claim C10: in the scheduling loop, the first cycle starts no earlier
than one hour after startup, every cycle ends no earlier than it starts,
and every later cycle starts no earlier than one hour after the previous
cycle completed; hence at most one announcement is attempted per hour. -/
theorem loop_hour_spacing (t0 : Nat) (sched : List (Nat × Nat)) :
    gapOk t0 (loopCycles t0 sched) := by
  induction sched generalizing t0 with
  | nil => trivial
  | cons it rest ih =>
    obtain ⟨now, dur⟩ := it
    by_cases hc : HOUR ≤ now - t0
    · simp only [loopCycles, if_pos hc, gapOk]
      refine ⟨?_, ?_, ih (now + dur)⟩
      · unfold HOUR at hc ⊢
        omega
      · omega
    · simp only [loopCycles, if_neg hc]
      exact ih t0

/-- Walk of Api::crates over a registry of exactly 250 items (2.5 pages of
PAGE_SIZE = 100) starting at page 1: pages 1 and 2 return 100 items each,
page 3 returns the remaining 50, page 4 comes back empty and stops the
loop, so all items are returned and 4 requests are issued. -/
theorem fetch_all_250 (items : List Crate) (h : items.length = 250)
    (fuel : Nat) (hf : 4 ≤ fuel) :
    Api.crates (registryFromList items) (some 1) fuel = some (items, 4) := by
  obtain ⟨k, rfl⟩ : ∃ k, fuel = k + 4 := ⟨fuel - 4, by omega⟩
  have step : ∀ (f p : Nat) (acc : List Crate) (r : Nat),
      Api.cratesAux (registryFromList items) (f + 1) p acc r =
        if (registryFromList items p).isEmpty then some (acc, r + 1)
        else Api.cratesAux (registryFromList items) f (p + 1)
          (acc ++ registryFromList items p) (r + 1) := fun _ _ _ _ => rfl
  have e1 : registryFromList items 1 = items.take 100 := by
    simp [registryFromList, PAGE_SIZE]
  have e2 : registryFromList items 2 = (items.drop 100).take 100 := by
    norm_num [registryFromList, PAGE_SIZE]
  have e3 : registryFromList items 3 = (items.drop 200).take 100 := by
    norm_num [registryFromList, PAGE_SIZE]
  have e4 : registryFromList items 4 = [] := by
    have hd : items.drop ((4 - 1) * PAGE_SIZE) = [] :=
      List.drop_eq_nil_of_le (by simp [PAGE_SIZE, h])
    simp only [registryFromList, hd, List.take_nil]
  have n1 : (items.take 100).isEmpty = false := by
    apply isEmpty_false_of_length_pos
    rw [List.length_take]
    omega
  have n2 : ((items.drop 100).take 100).isEmpty = false := by
    apply isEmpty_false_of_length_pos
    rw [List.length_take, List.length_drop]
    omega
  have n3 : ((items.drop 200).take 100).isEmpty = false := by
    apply isEmpty_false_of_length_pos
    rw [List.length_take, List.length_drop]
    omega
  have a2 : items.take 100 ++ (items.drop 100).take 100 = items.take 200 := by
    rw [← List.take_add]
  have a3 : items.take 200 ++ (items.drop 200).take 100 = items := by
    rw [← List.take_add]
    exact List.take_of_length_le (by omega)
  have h1 : Api.cratesAux (registryFromList items) (k + 4) 1 [] 0 =
      Api.cratesAux (registryFromList items) (k + 3) 2 (items.take 100) 1 := by
    have hs := step (k + 3) 1 [] 0
    rw [e1, n1] at hs
    exact hs
  have hh2 : Api.cratesAux (registryFromList items) (k + 3) 2 (items.take 100) 1 =
      Api.cratesAux (registryFromList items) (k + 2) 3 (items.take 200) 2 := by
    have hs := step (k + 2) 2 (items.take 100) 1
    rw [e2, n2, a2] at hs
    exact hs
  have hh3 : Api.cratesAux (registryFromList items) (k + 2) 3 (items.take 200) 2 =
      Api.cratesAux (registryFromList items) (k + 1) 4 items 3 := by
    have hs := step (k + 1) 3 (items.take 200) 2
    rw [e3, n3, a3] at hs
    exact hs
  have hh4 : Api.cratesAux (registryFromList items) (k + 1) 4 items 3
      = some (items, 4) := by
    have hs := step k 4 items 3
    rw [e4] at hs
    exact hs
  show Api.cratesAux (registryFromList items) (k + 4) 1 [] 0 = some (items, 4)
  rw [h1, hh2, hh3, hh4]

/-- Claim C2 counterexample: on a registry of exactly 250 = 2.5 * 100
items, Api::crates issues 4 page requests (the fourth being the empty page
that terminates the walk), not 3 as claimed. -/
theorem fetch_catalog_not_three_requests :
    Api.crates (registryFromList (List.replicate 250 (Crate.mk "c"))) (some 1) 10
      = some (List.replicate 250 (Crate.mk "c"), 4) ∧
    ¬ (Api.crates (registryFromList (List.replicate 250 (Crate.mk "c"))) (some 1) 10
        = some (List.replicate 250 (Crate.mk "c"), 3)) := by
  have h := fetch_all_250 (List.replicate 250 (Crate.mk "c"))
    (List.length_replicate ..) 10 (by omega)
  refine ⟨h, fun hcontra => ?_⟩
  rw [h] at hcontra
  have h43 : (4 : Nat) = 3 := congrArg Prod.snd (Option.some.inj hcontra)
  omega

/-- Claim C2 (amended): on a registry of exactly 2.5 * page_size packages,
fetch_catalog starting at page 1 returns all packages and issues exactly 4
page requests: three pages carrying data, the third holding the remaining
half page, plus a fourth request whose empty result terminates the walk. -/
theorem fetch_catalog_four_requests (items : List Crate) (h : items.length = 250)
    (fuel : Nat) (hf : 4 ≤ fuel) :
    Api.crates (registryFromList items) (some 1) fuel = some (items, 4) :=
  fetch_all_250 items h fuel hf

/-- Witness for fetch_catalog_four_requests on a concrete 250-item registry. -/
theorem fetch_catalog_four_requests_witness :
    Api.crates (registryFromList (List.replicate 250 (Crate.mk "d"))) (some 1) 7
      = some (List.replicate 250 (Crate.mk "d"), 4) :=
  fetch_catalog_four_requests (List.replicate 250 (Crate.mk "d"))
    (List.length_replicate ..) 7 (by omega)

/-- Claim C9 counterexample: with working registry oracles but credentials
missing from the environment, the cycle still performs the registry fetch
and the store sync (the store gains the synced row) before failing at the
credential load, so the failure does not precede all cycle work. -/
theorem config_failure_after_fetch_and_sync :
    (runCycle oracleMissingCreds [] 0).1
      = [CycleStep.fetchCatalog, CycleStep.syncStore, CycleStep.loadConfig] ∧
    CycleStep.fetchCatalog ∈ (runCycle oracleMissingCreds [] 0).1 ∧
    CycleStep.syncStore ∈ (runCycle oracleMissingCreds [] 0).1 ∧
    (runCycle oracleMissingCreds [] 0).2.1 = [CrateRecord.fresh "alpha" 0] ∧
    (runCycle oracleMissingCreds [] 0).2.2 = some "missing consumer key" := by
  refine ⟨rfl, by decide, by decide, rfl, rfl⟩

/-- Claim C9 (amended): the four credential strings are read from the
environment during each cycle rather than at process startup; when the
read fails the cycle aborts at that point with the error, after the
registry fetch and the store sync but before selection, detail fetch,
publishing and mark-visited; run propagates the error, so the process
exits with it. -/
theorem config_loaded_midcycle (o : CycleOracles) (s : List CrateRecord) (t : Int)
    (cs : List Crate) (e : String)
    (h1 : o.fetchPages = Except.ok cs) (h2 : o.fromEnv = Except.error e) :
    runCycle o s t
      = ([CycleStep.fetchCatalog, CycleStep.syncStore, CycleStep.loadConfig],
         Db.sync s cs t, some e) ∧
    CycleStep.fetchDetail ∉ (runCycle o s t).1 ∧
    CycleStep.publish ∉ (runCycle o s t).1 ∧
    CycleStep.markVisited ∉ (runCycle o s t).1 := by
  have hr : runCycle o s t
      = ([CycleStep.fetchCatalog, CycleStep.syncStore, CycleStep.loadConfig],
         Db.sync s cs t, some e) := by
    simp [runCycle, h1, h2]
  refine ⟨hr, ?_, ?_, ?_⟩ <;> (rw [hr]; simp)

/-- Witness for config_loaded_midcycle at the concrete failing oracle. -/
theorem config_loaded_midcycle_witness :
    runCycle oracleMissingCreds [] 0
      = ([CycleStep.fetchCatalog, CycleStep.syncStore, CycleStep.loadConfig],
         Db.sync [] [Crate.mk "alpha"] 0, some "missing consumer key") :=
  (config_loaded_midcycle oracleMissingCreds [] 0 [Crate.mk "alpha"]
    "missing consumer key" rfl rfl).1

end Cratebot
